import Mathlib

/-!
Verification development for the `secrets` Go module of the
s3-secrets-buildkite-plugin repository (file `secrets/secrets.go`).

Shallow embedding conventions:
* byte slices (`[]byte`) are `List Nat` (one `Nat` per byte; `'\n'` is `10`);
* Go `error` values are `Option String` (`none` = nil error); wrapping with
  `fmt.Errorf("msg: %w", err)` becomes string concatenation;
* the S3 `Client` is a pair of pure functions `get` / `bucketExists`
  (the Go interface methods `Get` and `BucketExists`);
* the ssh `Agent` is a pure function `add` (the Go method `Add`) returning an
  optional error, plus a pid used only in logging;
* the shared environment sink (`io.Writer`) is a function from the written
  bytes to an optional error; handlers record every payload passed to it;
* logging (`log.Logger`) is recorded as a list of `LogMsg` values, one per
  `Printf` site (the three-line ssh advisory is collapsed into one entry);
* Go's runtime panic from out-of-range indexing is `Option`: a function that
  can panic returns `none` exactly when the Go code would panic.
-/

/-- Error values: Go `error`, `none` is a nil error. -/
abbrev Err := String

/-- The bytes of a string, used for `io.WriteString` on the byte sink. -/
def strBytes (s : String) : List Nat :=
  s.toList.map Char.toNat

/-- Mirrors the Go struct `getResult` in secrets.go: the outcome of one
`Client.Get(bucket, key)` call. -/
structure getResult where
  bucket : String
  key : String
  data : List Nat
  err : Option Err
deriving DecidableEq, Repr

/-- One log line, a constructor per `Printf` call site in secrets.go. -/
inductive LogMsg where
  /-- "~~~ Downloading secrets from :s3: %s" -/
  | header (bucket : String)
  /-- "+++ :warning: Bucket %q doesn't exist" -/
  | warnBucketMissing (bucket : String)
  /-- `log.Println(err)` after the bucket warning -/
  | errLine (e : Err)
  /-- "Checking S3 for ..." header in getSSHKeys / getEnvs / getGitCredentials -/
  | checking (category : String)
  /-- "- %s" listing one candidate key -/
  | keyItem (k : String)
  /-- "+++ :warning: Failed to download ssh-key %s/%s: %v" -/
  | warnDownloadSSH (bucket key : String) (e : Err)
  /-- "Loading %s/%s (%d bytes) into ssh-agent (pid %d)" -/
  | loadingSSH (bucket key : String)
  /-- the three-line "Failed to find an SSH key in secret bucket" advisory -/
  | warnNoSSHKey (repo bucket : String)
  /-- "+++ :warning: Failed to download env from %s/%s: %v" -/
  | warnDownloadEnv (bucket key : String) (e : Err)
  /-- "Loading %s/%s (%d bytes) of env" -/
  | loadingEnv (bucket key : String)
  /-- "Adding git-credentials in %s/%s as a credential helper" -/
  | addingGitCred (bucket key : String)
deriving DecidableEq, Repr

/-- Whether a log line is one of the `+++ :warning:` lines. -/
def LogMsg.isWarning : LogMsg → Bool
  | .warnBucketMissing _ => true
  | .warnDownloadSSH _ _ _ => true
  | .warnNoSSHKey _ _ => true
  | .warnDownloadEnv _ _ _ => true
  | _ => false

/-- Go `strings.HasPrefix(s, p)`: the characters of `p` lead those of `s`
(char-list based so that it evaluates by kernel reduction). -/
def strStartsWith (s p : String) : Bool :=
  p.toList.isPrefixOf s.toList

/-- The newline normalisation inside `handleEnvs`:
`if data[len(data)-1] != '\n' { data = append(data, '\n') }`.
Indexing `data[len(data)-1]` panics on an empty slice; `none` models that
panic. -/
def envPayload (data : List Nat) : Option (List Nat) :=
  match data.getLast? with
  | none => none
  | some b => some (if b ≠ 10 then data ++ [10] else data)

/-- Loop body of Go `handleSSHKeys`, threading the `keyFound` flag.
Returns the log lines, the payloads passed to `Agent.Add`, the final
`keyFound` value and the returned error (`none` when the loop completed). -/
def handleSSHKeysLoop (add : List Nat → Option Err) :
    List getResult → Bool → List LogMsg × List (List Nat) × Bool × Option Err
  | [], keyFound => ([], [], keyFound, none)
  | r :: rs, keyFound =>
    match r.err with
    | some e =>
      let rest := handleSSHKeysLoop add rs keyFound
      (LogMsg.warnDownloadSSH r.bucket r.key e :: rest.1, rest.2)
    | none =>
      match add r.data with
      | some e =>
        ([LogMsg.loadingSSH r.bucket r.key], [r.data], keyFound,
          some ("ssh-agent add: " ++ e))
      | none =>
        let rest := handleSSHKeysLoop add rs true
        (LogMsg.loadingSSH r.bucket r.key :: rest.1, r.data :: rest.2.1,
          rest.2.2)

/-- Go `handleSSHKeys`: drain the results, register keys with the agent, and
emit the advisory warning when no key was found and the repo looks like an
ssh transport. Returns the log lines, the `Add` call payloads, and the
returned error. -/
def handleSSHKeys (add : List Nat → Option Err) (repo bucket : String)
    (results : List getResult) :
    List LogMsg × List (List Nat) × Option Err :=
  let out := handleSSHKeysLoop add results false
  match out.2.2.2 with
  | some e => (out.1, out.2.1, some e)
  | none =>
    if !out.2.2.1 && strStartsWith repo "git@" then
      (out.1 ++ [LogMsg.warnNoSSHKey repo bucket], out.2.1, none)
    else
      (out.1, out.2.1, none)

/-- Go `handleEnvs`: drain the results, normalise each successful payload to
end in a newline, and write it to the environment sink. Returns `none` when
the Go code panics (empty successful payload), otherwise the log lines, the
payloads passed to the sink, and the returned error. -/
def handleEnvs (write : List Nat → Option Err) :
    List getResult → Option (List LogMsg × List (List Nat) × Option Err)
  | [] => some ([], [], none)
  | r :: rs =>
    match r.err with
    | some e =>
      match handleEnvs write rs with
      | none => none
      | some rest =>
        some (LogMsg.warnDownloadEnv r.bucket r.key e :: rest.1, rest.2)
    | none =>
      match envPayload r.data with
      | none => none
      | some data =>
        match write data with
        | some e =>
          some ([LogMsg.loadingEnv r.bucket r.key], [data],
            some ("copying env: " ++ e))
        | none =>
          match handleEnvs write rs with
          | none => none
          | some rest =>
            some (LogMsg.loadingEnv r.bucket r.key :: rest.1,
              data :: rest.2.1, rest.2.2)

/-- The descriptor built per successful git-credentials result:
`fmt.Sprintf("'credential.helper=%s %s %s'", helper, bucket, key)`. -/
def gitHelperDesc (helper bucket key : String) : String :=
  "'credential.helper=" ++ helper ++ " " ++ bucket ++ " " ++ key ++ "'"

/-- Loop of Go `handleGitCredentials`: collect the log lines and the helper
descriptors for the successful results. Errored results are skipped with no
logging. -/
def handleGitCredentialsLoop (helper : String) :
    List getResult → List LogMsg × List String
  | [] => ([], [])
  | r :: rs =>
    let rest := handleGitCredentialsLoop helper rs
    match r.err with
    | some _ => rest
    | none =>
      (LogMsg.addingGitCred r.bucket r.key :: rest.1,
        gitHelperDesc helper r.bucket r.key :: rest.2)

/-- Go `handleGitCredentials`: drain the results, and when at least one
descriptor was built write the single `GIT_CONFIG_PARAMETERS=` line to the
shared sink. Returns the log lines, the payloads passed to the sink, and the
returned error. -/
def handleGitCredentials (write : List Nat → Option Err) (helper : String)
    (results : List getResult) :
    List LogMsg × List (List Nat) × Option Err :=
  let out := handleGitCredentialsLoop helper results
  if out.2 = [] then
    (out.1, [], none)
  else
    let env := "GIT_CONFIG_PARAMETERS=" ++ String.intercalate " " out.2 ++ "\n"
    match write (strBytes env) with
    | some e =>
      (out.1, [strBytes env], some ("writing GIT_CONFIG_PARAMETERS env: " ++ e))
    | none => (out.1, [strBytes env], none)

/-- The `getResult` produced for one key by a fetch goroutine of `GetAll`:
`getResult{bucket: bucket, key: k, data: data, err: err}` with
`data, err := c.Get(bucket, k)`. -/
def mkResult (get : String → String → List Nat × Option Err)
    (bucket k : String) : getResult :=
  { bucket := bucket, key := k, data := (get bucket k).1,
    err := (get bucket k).2 }

/-- The stream `GetAll` delivers on its results channel: one result per key,
in the input-list order. (The theorems about the `GAStep` transition system
below justify this as the denotation of `GetAll` under every interleaving.) -/
def orderedResults (get : String → String → List Nat × Option Err)
    (bucket : String) (keys : List String) : List getResult :=
  keys.map (mkResult get bucket)

/-- Phase of fetch goroutine `i` of `GetAll`: it has not yet returned from
`c.Get` (`idle`), it holds its fetched result and is waiting to receive the
results channel on its `link` (`fetched`), or it has sent its result and
handed the channel on (`published`). -/
inductive TaskPhase where
  | idle
  | fetched (r : getResult)
  | published
deriving DecidableEq, Repr

/-- State of one `GetAll` invocation: the phase of each goroutine, which
position currently holds the results channel (`baton` — the channel-chain
`link`), the results sent so far, and whether the channel was closed. -/
structure GAState where
  phases : List TaskPhase
  baton : Nat
  emitted : List getResult
  closed : Bool
deriving DecidableEq, Repr

/-- The state of `GetAll` just after spawning one goroutine per key. -/
def GAInit (keys : List String) : GAState :=
  { phases := keys.map (fun _ => TaskPhase.idle), baton := 0,
    emitted := [], closed := false }

/-- Observable events of `GetAll`: goroutine `i` returns from `c.Get`,
goroutine `i` sends its result on the results channel, the channel closes. -/
inductive GALabel where
  | fetch (i : Nat)
  | publish (i : Nat)
  | close
deriving DecidableEq, Repr

/-- Transition relation of `GetAll c bucket keys results`:
* `fetch i` — goroutine `i` completes `c.Get(bucket, keys[i])`; this can
  happen for any goroutine, in any order, at any time;
* `publish i` — goroutine `i`, having fetched, receives the results channel
  from goroutine `i-1` (the baton), sends its result, and hands the channel
  to goroutine `i+1`;
* `close` — after the last goroutine hands the channel back,
  `close(<-link)` closes the results channel. -/
inductive GAStep (get : String → String → List Nat × Option Err)
    (bucket : String) (keys : List String) :
    GAState → GALabel → GAState → Prop where
  | fetch (i : Nat) (s : GAState)
      (h : s.phases[i]? = some TaskPhase.idle) :
      GAStep get bucket keys s (GALabel.fetch i)
        { s with phases :=
            s.phases.set i (TaskPhase.fetched (mkResult get bucket (keys.getD i ""))) }
  | publish (i : Nat) (r : getResult) (s : GAState)
      (h : s.phases[i]? = some (TaskPhase.fetched r)) (hb : s.baton = i) :
      GAStep get bucket keys s (GALabel.publish i)
        { phases := s.phases.set i TaskPhase.published, baton := i + 1,
          emitted := s.emitted ++ [r], closed := s.closed }
  | close (s : GAState) (hb : s.baton = keys.length) (hc : s.closed = false) :
      GAStep get bucket keys s GALabel.close { s with closed := true }

/-- A run of the `GetAll` transition system, recording the event labels. -/
inductive GATrace (get : String → String → List Nat × Option Err)
    (bucket : String) (keys : List String) :
    GAState → List GALabel → GAState → Prop where
  | nil (s : GAState) : GATrace get bucket keys s [] s
  | cons {s s' s'' : GAState} {l : GALabel} {ls : List GALabel}
      (hstep : GAStep get bucket keys s l s')
      (htr : GATrace get bucket keys s' ls s'') :
      GATrace get bucket keys s (l :: ls) s''

/-- Inductive invariant of the `GetAll` system: the emitted results are
exactly the first `baton` elements of the ordered result list, the
positions before the baton are published, each fetched-but-unpublished
goroutine holds the result of `Get` on its own key, and the channel closes
only once the baton passed every position. -/
def GAInv (get : String → String → List Nat × Option Err)
    (bucket : String) (keys : List String) (s : GAState) : Prop :=
  s.phases.length = keys.length ∧
  s.baton ≤ keys.length ∧
  s.emitted = (orderedResults get bucket keys).take s.baton ∧
  (∀ i, i < s.baton → s.phases[i]? = some TaskPhase.published) ∧
  (∀ i r, s.phases[i]? = some (TaskPhase.fetched r) →
    r = mkResult get bucket (keys.getD i "")) ∧
  (s.closed = true → s.baton = keys.length)

/-- Candidate keys probed by Go `getSSHKeys` (`pfx` is Go `conf.Prefix`). -/
def sshKeysList (pfx : String) : List String :=
  [pfx ++ "/private_ssh_key", pfx ++ "/id_rsa_github",
    "private_ssh_key", "id_rsa_github"]

/-- Candidate keys probed by Go `getEnvs`. -/
def envKeysList (pfx : String) : List String :=
  ["env", "environment", pfx ++ "/env", pfx ++ "/environment"]

/-- Candidate keys probed by Go `getGitCredentials`. -/
def gitKeysList (pfx : String) : List String :=
  ["git-credentials", pfx ++ "/git-credentials"]

/-- The "Checking S3 for ..." log lines emitted by the three `get*`
dispatch functions. -/
def checkingLogs (category : String) (keys : List String) : List LogMsg :=
  LogMsg.checking category :: keys.map LogMsg.keyItem

/-- Go struct `Config` in secrets.go. The S3 `Client` is the pair
`get` / `bucketExists`, the ssh `Agent` is `add` / `pid`, the `EnvSink`
writer is `write`, and `pfx` is the field `Prefix`. -/
structure Config where
  repo : String
  bucket : String
  pfx : String
  get : String → String → List Nat × Option Err
  bucketExists : String → Bool × Option Err
  add : List Nat → Option Err
  pid : Nat
  write : List Nat → Option Err
  gitCredentialHelper : String

/-- The observable outcome of one `Run`: the returned error, every
`(bucket, key)` pair passed to `Client.Get`, the log lines, the payloads
passed to `Agent.Add`, and the payloads passed to the environment sink. -/
structure RunOut where
  err : Option Err
  getCalls : List (String × String)
  logs : List LogMsg
  adds : List (List Nat)
  envWrites : List (List Nat)
deriving DecidableEq, Repr

/-- Go `Run`: bucket-existence precondition check, then the three fetch
pipelines are started (all their `Get` calls happen), then the three
handlers drain their streams in the fixed order ssh, env, git, aborting at
the first handler error. `none` models the runtime panic from `handleEnvs`
on an empty successful payload. -/
def Run (conf : Config) : Option RunOut :=
  let bucket := conf.bucket
  let hdr := [LogMsg.header bucket]
  match conf.bucketExists bucket with
  | (ok, berr) =>
    if !ok then
      let errLogs :=
        match berr with
        | some e => [LogMsg.warnBucketMissing bucket, LogMsg.errLine e]
        | none => [LogMsg.warnBucketMissing bucket]
      some { err := some ("bucket \"" ++ bucket ++ "\" not found"),
             getCalls := [], logs := hdr ++ errLogs, adds := [],
             envWrites := [] }
    else
      let sshKeys := sshKeysList conf.pfx
      let envKeys := envKeysList conf.pfx
      let gitKeys := gitKeysList conf.pfx
      let dispatchLogs := checkingLogs "SSH keys" sshKeys ++
        checkingLogs "environment files" envKeys ++
        checkingLogs "git credentials" gitKeys
      let getCalls := (sshKeys ++ envKeys ++ gitKeys).map (fun k => (bucket, k))
      let resultsSSH := orderedResults conf.get bucket sshKeys
      let resultsEnv := orderedResults conf.get bucket envKeys
      let resultsGit := orderedResults conf.get bucket gitKeys
      let ssh := handleSSHKeys conf.add conf.repo bucket resultsSSH
      match ssh.2.2 with
      | some e =>
        some { err := some e, getCalls := getCalls,
               logs := hdr ++ dispatchLogs ++ ssh.1, adds := ssh.2.1,
               envWrites := [] }
      | none =>
        match handleEnvs conf.write resultsEnv with
        | none => none
        | some env =>
          match env.2.2 with
          | some e =>
            some { err := some e, getCalls := getCalls,
                   logs := hdr ++ dispatchLogs ++ ssh.1 ++ env.1,
                   adds := ssh.2.1, envWrites := env.2.1 }
          | none =>
            let git := handleGitCredentials conf.write
              conf.gitCredentialHelper resultsGit
            some { err := git.2.2, getCalls := getCalls,
                   logs := hdr ++ dispatchLogs ++ ssh.1 ++ env.1 ++ git.1,
                   adds := ssh.2.1, envWrites := env.2.1 ++ git.2.1 }

/-- `1` when goroutine `i` has returned from its `c.Get` call in state `s`,
`0` when it has not; used to count `fetch` events along a trace. -/
def fetchFlag (s : GAState) (i : Nat) : Nat :=
  if s.phases[i]? = some TaskPhase.idle then 0 else 1

/-- The state of `GetAll` along the canonical sequential schedule: the
first `k` goroutines have published and the rest have not started their
fetch. -/
def stateK (get : String → String → List Nat × Option Err)
    (bucket : String) (keys : List String) (k : Nat) : GAState :=
  { phases := List.replicate k TaskPhase.published ++
      (keys.drop k).map (fun _ => TaskPhase.idle),
    baton := k,
    emitted := (orderedResults get bucket keys).take k,
    closed := false }

/-- The terminal state of `GetAll`: everything published, channel closed. -/
def gaFinal (get : String → String → List Nat × Option Err)
    (bucket : String) (keys : List String) : GAState :=
  { phases := List.replicate keys.length TaskPhase.published,
    baton := keys.length,
    emitted := orderedResults get bucket keys,
    closed := true }

/-- Concrete fetch function for witnesses: every key yields the byte `7`. -/
def getW : String → String → List Nat × Option Err :=
  fun _ _ => ([7], none)

/-- Concrete two-key list for the `GetAll` witnesses. -/
def keysW : List String := ["a", "b"]

/-- Concrete fetch function for witnesses: every lookup fails. -/
def getFail : String → String → List Nat × Option Err :=
  fun _ _ => ([], some "NoSuchKey")

/-- Concrete sink that accepts every write. -/
def writeOk : List Nat → Option Err :=
  fun _ => none

/-- Concrete errored fetch result. -/
def errResult : getResult :=
  { bucket := "b", key := "k", data := [], err := some "AccessDenied" }

/-- Concrete configuration whose bucket-existence check reports the bucket
present but also returns a non-nil error, and whose lookups all fail. -/
def confBucketErr : Config :=
  { repo := "https://example.com/repo.git", bucket := "bkt", pfx := "p",
    get := getFail, bucketExists := fun _ => (true, some "timeout"),
    add := fun _ => none, pid := 1, write := writeOk,
    gitCredentialHelper := "/usr/local/bin/git-credential-s3-secrets" }

/-- Concrete configuration whose bucket-existence check reports the bucket
absent. -/
def confMissing : Config :=
  { repo := "git@github.com:org/repo.git", bucket := "missing-bucket",
    pfx := "p", get := getW, bucketExists := fun _ => (false, none),
    add := fun _ => none, pid := 1, write := writeOk,
    gitCredentialHelper := "/usr/local/bin/git-credential-s3-secrets" }

/-- Concrete configuration whose ssh-key lookups succeed but whose
ssh-agent rejects every key. -/
def confAgentFail : Config :=
  { repo := "git@github.com:org/repo.git", bucket := "bkt", pfx := "p",
    get := getW, bucketExists := fun _ => (true, none),
    add := fun _ => some "agent refused", pid := 1, write := writeOk,
    gitCredentialHelper := "/usr/local/bin/git-credential-s3-secrets" }

/-- Concrete ssh-agent that accepts every key. -/
def addOk : List Nat → Option Err :=
  fun _ => none

/-- Concrete successful ssh-key fetch result. -/
def sshResOk : getResult :=
  { bucket := "bkt", key := "k1", data := [1, 2], err := none }

/-- Concrete successful env fetch result whose payload `A` lacks a trailing
newline. -/
def envResA : getResult :=
  { bucket := "bkt", key := "env", data := [65], err := none }

theorem gaInv_init (get : String → String → List Nat × Option Err)
    (bucket : String) (keys : List String) :
    GAInv get bucket keys (GAInit keys) := by
  refine ⟨by simp [GAInit], by simp [GAInit], by simp [GAInit], ?_, ?_,
    by simp [GAInit]⟩
  · intro i hi
    simp [GAInit] at hi
  · intro i r h
    simp only [GAInit, List.getElem?_map] at h
    cases hk : keys[i]? <;> simp [hk] at h

theorem gaInv_step {get : String → String → List Nat × Option Err}
    {bucket : String} {keys : List String} {s s' : GAState} {l : GALabel}
    (hstep : GAStep get bucket keys s l s')
    (hinv : GAInv get bucket keys s) : GAInv get bucket keys s' := by
  obtain ⟨hlen, hbat, hemit, hpub, hfet, hclosed⟩ := hinv
  cases hstep with
  | fetch i s h =>
    have hi : i < s.phases.length := (List.getElem?_eq_some.mp h).1
    refine ⟨by simpa using hlen, hbat, hemit, ?_, ?_, hclosed⟩
    · intro j hj
      rcases eq_or_ne i j with rfl | hne
      · rw [hpub i hj] at h
        exact absurd (Option.some.inj h) (by simp)
      · rw [List.getElem?_set_ne hne]
        exact hpub j hj
    · intro j r hj
      rcases eq_or_ne i j with rfl | hne
      · rw [List.getElem?_set_eq_of_lt _ hi] at hj
        have := Option.some.inj hj
        cases this
        rfl
      · rw [List.getElem?_set_ne hne] at hj
        exact hfet j r hj
  | publish i r s h hb =>
    have hi : i < s.phases.length := (List.getElem?_eq_some.mp h).1
    have hik : i < keys.length := hlen ▸ hi
    have hkey : keys[i]? = some (keys.getD i "") := by
      rw [List.getD_eq_getElem?_getD, List.getElem?_eq_getElem hik]
      rfl
    have hr : r = mkResult get bucket (keys.getD i "") := hfet i r h
    refine ⟨by simpa using hlen, hik, ?_, ?_, ?_, ?_⟩
    · rw [hemit, hb, List.take_succ]
      have : (orderedResults get bucket keys)[i]? =
          some (mkResult get bucket (keys.getD i "")) := by
        rw [orderedResults, List.getElem?_map, hkey]
        rfl
      rw [this, hr]
      rfl
    · intro j hj
      replace hj : j < i + 1 := hj
      rcases eq_or_ne i j with rfl | hne
      · exact List.getElem?_set_eq_of_lt _ hi
      · rw [List.getElem?_set_ne hne]
        exact hpub j (by omega)
    · intro j r' hj
      rcases eq_or_ne i j with rfl | hne
      · rw [List.getElem?_set_eq_of_lt _ hi] at hj
        exact absurd (Option.some.inj hj) (by simp)
      · rw [List.getElem?_set_ne hne] at hj
        exact hfet j r' hj
    · intro hcl
      have := hclosed hcl
      omega
  | close s hb hc =>
    exact ⟨hlen, hbat, hemit, hpub, hfet, fun _ => hb⟩

theorem gaInv_trace {get : String → String → List Nat × Option Err}
    {bucket : String} {keys : List String} {s s' : GAState}
    {ls : List GALabel} (htr : GATrace get bucket keys s ls s')
    (hinv : GAInv get bucket keys s) : GAInv get bucket keys s' := by
  induction htr with
  | nil s => exact hinv
  | cons hstep _ ih => exact ih (gaInv_step hstep hinv)

theorem ga_emitted_of_closed {get : String → String → List Nat × Option Err}
    {bucket : String} {keys : List String} {ls : List GALabel} {s : GAState}
    (htr : GATrace get bucket keys (GAInit keys) ls s)
    (hc : s.closed = true) :
    s.emitted = orderedResults get bucket keys := by
  obtain ⟨hlen, hbat, hemit, _, _, hclosed⟩ :=
    gaInv_trace htr (gaInv_init get bucket keys)
  rw [hemit, hclosed hc]
  have hol : (orderedResults get bucket keys).length = keys.length := by
    simp [orderedResults]
  rw [← hol, List.take_length]

theorem gaTrace_cons_of_eq {get : String → String → List Nat × Option Err}
    {bucket : String} {keys : List String} {s s1 s2 s3 : GAState}
    {l : GALabel} {ls : List GALabel}
    (hstep : GAStep get bucket keys s l s1) (heq : s1 = s2)
    (htr : GATrace get bucket keys s2 ls s3) :
    GATrace get bucket keys s (l :: ls) s3 := by
  subst heq
  exact GATrace.cons hstep htr

theorem set_append_length {α : Type} (l1 l2 : List α) (a : α) :
    (l1 ++ l2).set l1.length a = l1 ++ l2.set 0 a := by
  induction l1 with
  | nil => rfl
  | cons x xs ih =>
    simp only [List.cons_append, List.length_cons, List.set_cons_succ, ih]

theorem ga_run_from (get : String → String → List Nat × Option Err)
    (bucket : String) (keys : List String) :
    ∀ (rest : List String) (k : Nat), keys.drop k = rest →
      k ≤ keys.length →
      ∃ ls, GATrace get bucket keys (stateK get bucket keys k) ls
        (gaFinal get bucket keys) := by
  intro rest
  induction rest with
  | nil =>
    intro k hdrop hk
    have hkeq : k = keys.length := by
      have := List.drop_eq_nil_iff.mp hdrop
      omega
    subst hkeq
    refine ⟨[GALabel.close],
      gaTrace_cons_of_eq (GAStep.close _ rfl rfl) ?_ (GATrace.nil _)⟩
    simp [stateK, gaFinal, hdrop]
    simp [orderedResults]
  | cons r rest ih =>
    intro k hdrop hk
    have hklt : k < keys.length := by
      by_contra hle
      rw [List.drop_eq_nil_iff.mpr (by omega)] at hdrop
      exact List.noConfusion hdrop
    have hkeyk : keys[k]? = some r := by
      have h := List.getElem?_drop keys k 0
      rw [hdrop] at h
      simpa using h.symm
    have hgetD : keys.getD k "" = r := by
      rw [List.getD_eq_getElem?_getD, hkeyk]
      rfl
    have hdrop2 : keys.drop (k + 1) = rest := by
      have h := List.drop_drop 1 k keys
      rw [hdrop] at h
      simpa using h.symm
    obtain ⟨ls, htr⟩ := ih (k + 1) hdrop2 (by omega)
    have hmapcons : (keys.drop k).map (fun _ => TaskPhase.idle) =
        TaskPhase.idle :: rest.map (fun _ => TaskPhase.idle) := by
      rw [hdrop]
      rfl
    have hidle : (stateK get bucket keys k).phases[k]? =
        some TaskPhase.idle := by
      rw [stateK]
      rw [List.getElem?_append_right (by simp)]
      simp [hmapcons]
    have hphases1 : (stateK get bucket keys k).phases.set k
        (TaskPhase.fetched (mkResult get bucket (keys.getD k ""))) =
        List.replicate k TaskPhase.published ++
          (TaskPhase.fetched (mkResult get bucket r) ::
            rest.map (fun _ => TaskPhase.idle)) := by
      rw [stateK, hmapcons, hgetD]
      have h := set_append_length (List.replicate k TaskPhase.published)
        (TaskPhase.idle :: rest.map (fun _ => TaskPhase.idle))
        (TaskPhase.fetched (mkResult get bucket r))
      simp only [List.length_replicate] at h
      rw [h]
      rfl
    refine ⟨GALabel.fetch k :: GALabel.publish k :: ls,
      GATrace.cons (GAStep.fetch k _ hidle)
        (gaTrace_cons_of_eq
          (GAStep.publish k (mkResult get bucket (keys.getD k "")) _ ?_ rfl)
          ?_ htr)⟩
    · show ((stateK get bucket keys k).phases.set k
        (TaskPhase.fetched (mkResult get bucket (keys.getD k ""))))[k]? = _
      rw [hphases1, List.getElem?_append_right (by simp), hgetD]
      simp
    · show GAState.mk
        (((stateK get bucket keys k).phases.set k
          (TaskPhase.fetched (mkResult get bucket (keys.getD k "")))).set
            k TaskPhase.published)
        (k + 1)
        ((stateK get bucket keys k).emitted ++
          [mkResult get bucket (keys.getD k "")])
        false = stateK get bucket keys (k + 1)
      have hemit2 : (stateK get bucket keys k).emitted ++
          [mkResult get bucket (keys.getD k "")] =
          List.take (k + 1) (orderedResults get bucket keys) := by
        rw [stateK, hgetD, List.take_succ]
        have hok : (orderedResults get bucket keys)[k]? =
            some (mkResult get bucket r) := by
          rw [orderedResults, List.getElem?_map, hkeyk]
          rfl
        rw [hok]
        rfl
      rw [hphases1, hemit2]
      have h2 := set_append_length (List.replicate k TaskPhase.published)
        (TaskPhase.fetched (mkResult get bucket r) ::
          rest.map (fun _ => TaskPhase.idle)) TaskPhase.published
      simp only [List.length_replicate] at h2
      rw [h2]
      have hset3 : List.replicate k TaskPhase.published ++
          (TaskPhase.fetched (mkResult get bucket r) ::
            rest.map (fun _ => TaskPhase.idle)).set 0 TaskPhase.published =
          List.replicate (k + 1) TaskPhase.published ++
            rest.map (fun _ => TaskPhase.idle) := by
        show List.replicate k TaskPhase.published ++ TaskPhase.published ::
          rest.map (fun _ => TaskPhase.idle) = _
        rw [List.replicate_succ', List.append_assoc]
        rfl
      rw [hset3, stateK, hdrop2]

theorem fetchFlag_step {get : String → String → List Nat × Option Err}
    {bucket : String} {keys : List String} {s s' : GAState} {l : GALabel}
    (hstep : GAStep get bucket keys s l s') (i : Nat) :
    fetchFlag s' i = fetchFlag s i +
      (if l = GALabel.fetch i then 1 else 0) := by
  cases hstep with
  | fetch j s h =>
    have hj : j < s.phases.length := (List.getElem?_eq_some.mp h).1
    rcases eq_or_ne j i with rfl | hne
    · simp [fetchFlag, h, List.getElem?_set_eq_of_lt _ hj]
    · simp [fetchFlag, List.getElem?_set_ne hne, hne]
  | publish j r s h hb =>
    have hj : j < s.phases.length := (List.getElem?_eq_some.mp h).1
    rcases eq_or_ne j i with rfl | hne
    · simp [fetchFlag, h, List.getElem?_set_eq_of_lt _ hj]
    · simp [fetchFlag, List.getElem?_set_ne hne]
  | close s hb hc =>
    simp [fetchFlag]

theorem fetchFlag_trace {get : String → String → List Nat × Option Err}
    {bucket : String} {keys : List String} {s s' : GAState}
    {ls : List GALabel} (htr : GATrace get bucket keys s ls s') (i : Nat) :
    fetchFlag s' i = fetchFlag s i + ls.count (GALabel.fetch i) := by
  induction htr with
  | nil s => simp
  | cons hstep htr ih =>
    rename_i l ls'
    rw [ih, fetchFlag_step hstep i, List.count_cons]
    rcases eq_or_ne l (GALabel.fetch i) with rfl | hl
    · simp
      omega
    · simp [hl]

/-- C1: on every trace of `GetAll`, once the results channel is closed the
delivered stream is exactly one `getResult` per input key in input-list
order (result `i` is the fetch of key `i`), whatever order the concurrent
fetches completed in; and a completing schedule exists for every key list
(for `keys = []` this instantiates to a closed channel with zero results,
since `orderedResults get bucket [] = []`). -/
theorem getAll_delivers_ordered_results
    (get : String → String → List Nat × Option Err) (bucket : String)
    (keys : List String) :
    (∀ ls s, GATrace get bucket keys (GAInit keys) ls s → s.closed = true →
      s.emitted = orderedResults get bucket keys ∧
      s.emitted.length = keys.length ∧
      ∀ i, i < keys.length →
        s.emitted[i]? = some (mkResult get bucket (keys.getD i ""))) ∧
    (∃ ls s, GATrace get bucket keys (GAInit keys) ls s ∧ s.closed = true ∧
      s.emitted = orderedResults get bucket keys) := by
  constructor
  · intro ls s htr hc
    have he := ga_emitted_of_closed htr hc
    refine ⟨he, by simp [he, orderedResults], ?_⟩
    intro i hi
    rw [he, orderedResults, List.getElem?_map]
    have hk : keys[i]? = some (keys.getD i "") := by
      rw [List.getD_eq_getElem?_getD, List.getElem?_eq_getElem hi]
      rfl
    rw [hk]
    rfl
  · obtain ⟨ls, htr⟩ := ga_run_from get bucket keys keys 0 rfl (by omega)
    refine ⟨ls, gaFinal get bucket keys, ?_, rfl, rfl⟩
    have h0 : stateK get bucket keys 0 = GAInit keys := by
      simp [stateK, GAInit]
    rwa [h0] at htr

/-- Shared concrete trace for the `GetAll` witnesses: two keys, the second
goroutine finishes its fetch before the first, yet publication happens in
input order. -/
theorem gaTraceW : GATrace getW "B" keysW (GAInit keysW)
    [GALabel.fetch 1, GALabel.fetch 0, GALabel.publish 0, GALabel.publish 1,
      GALabel.close] (gaFinal getW "B" keysW) :=
  GATrace.cons (GAStep.fetch 1 _ rfl)
    (GATrace.cons (GAStep.fetch 0 _ rfl)
      (GATrace.cons (GAStep.publish 0 (mkResult getW "B" "a") _ rfl rfl)
        (GATrace.cons (GAStep.publish 1 (mkResult getW "B" "b") _ rfl rfl)
          (gaTrace_cons_of_eq (GAStep.close _ rfl rfl) (by decide)
            (GATrace.nil _)))))

/-- Witness for C1 at a concrete schedule in which fetch 1 completes before
fetch 0. -/
theorem getAll_delivers_ordered_results_witness :
    (gaFinal getW "B" keysW).closed = true ∧
    (gaFinal getW "B" keysW).emitted = orderedResults getW "B" keysW :=
  ⟨rfl,
    ((getAll_delivers_ordered_results getW "B" keysW).1 _ _ gaTraceW rfl).1⟩

/-- C9: on every completing trace of `GetAll`, each key's goroutine calls
`c.Get` exactly once — no key is skipped after an earlier success and no
key is retried after a failure. -/
theorem getAll_fetches_each_key_once
    (get : String → String → List Nat × Option Err) (bucket : String)
    (keys : List String) :
    ∀ ls s, GATrace get bucket keys (GAInit keys) ls s → s.closed = true →
      ∀ i, i < keys.length → ls.count (GALabel.fetch i) = 1 := by
  intro ls s htr hc i hi
  have hflag := fetchFlag_trace htr i
  have hinit : fetchFlag (GAInit keys) i = 0 := by
    simp [fetchFlag, GAInit, List.getElem?_map, List.getElem?_eq_getElem hi,
      List.getElem?_replicate, hi]
  obtain ⟨hlen, _, _, hpub, _, hclosed⟩ :=
    gaInv_trace htr (gaInv_init get bucket keys)
  have hbaton := hclosed hc
  have hpubi : s.phases[i]? = some TaskPhase.published := by
    refine hpub i ?_
    omega
  have hfin : fetchFlag s i = 1 := by
    simp [fetchFlag, hpubi]
  omega

/-- Witness for C9 at the same concrete schedule. -/
theorem getAll_fetches_each_key_once_witness :
    (gaFinal getW "B" keysW).closed = true ∧ 0 < keysW.length ∧
    ([GALabel.fetch 1, GALabel.fetch 0, GALabel.publish 0, GALabel.publish 1,
      GALabel.close].count (GALabel.fetch 0) = 1) :=
  ⟨rfl, by decide,
    getAll_fetches_each_key_once getW "B" keysW _ _ gaTraceW rfl 0 (by decide)⟩

theorem gitLoop_eq (helper : String) (results : List getResult) :
    handleGitCredentialsLoop helper results =
      ((results.filter (fun r => r.err.isNone)).map
          (fun r => LogMsg.addingGitCred r.bucket r.key),
        (results.filter (fun r => r.err.isNone)).map
          (fun r => gitHelperDesc helper r.bucket r.key)) := by
  induction results with
  | nil => rfl
  | cons r rs ih =>
    cases he : r.err with
    | some e =>
      simp [handleGitCredentialsLoop, he, List.filter_cons, ih]
    | none =>
      simp [handleGitCredentialsLoop, he, List.filter_cons, ih]

/-- C5: the git-credentials handler writes nothing when no descriptor was
built from a successful result, and otherwise writes exactly one
newline-terminated `GIT_CONFIG_PARAMETERS=` line holding the descriptors
joined by single spaces in result order. -/
theorem gitCredentials_single_line (write : List Nat → Option Err)
    (helper : String) (results : List getResult) :
    (handleGitCredentials write helper results).2.1 =
      (if results.filter (fun r => r.err.isNone) = [] then []
       else [strBytes ("GIT_CONFIG_PARAMETERS=" ++
         String.intercalate " "
           ((results.filter (fun r => r.err.isNone)).map
             (fun r => gitHelperDesc helper r.bucket r.key)) ++ "\n")]) := by
  by_cases hs : results.filter (fun r => r.err.isNone) = []
  · simp [handleGitCredentials, gitLoop_eq, hs]
  · have hmap : (results.filter (fun r => r.err.isNone)).map
        (fun r => gitHelperDesc helper r.bucket r.key) ≠ [] := by
      simpa using hs
    simp only [handleGitCredentials, gitLoop_eq, if_neg hmap, if_neg hs]
    cases write (strBytes ("GIT_CONFIG_PARAMETERS=" ++
        String.intercalate " "
          ((results.filter (fun r => r.err.isNone)).map
            (fun r => gitHelperDesc helper r.bucket r.key)) ++ "\n")) <;>
      rfl

/-- C10: each git-credential descriptor built for a successful result is
exactly the single-quoted string
`'credential.helper=<helper> <bucket> <key>'` with the three parts inserted
verbatim and separated by single spaces. -/
theorem gitCredentials_descriptor_format (helper : String)
    (results : List getResult) :
    (handleGitCredentialsLoop helper results).2 =
      (results.filter (fun r => r.err.isNone)).map
        (fun r => "'credential.helper=" ++ helper ++ " " ++ r.bucket ++
          " " ++ r.key ++ "'") := by
  rw [gitLoop_eq]
  rfl

/-- C6 counterexample: the git-credentials handler, given one errored
result, emits no log line at all (in particular no warning) even though it
processed a lookup failure without returning an error. -/
theorem gitCredentials_failure_not_logged :
    errResult.err.isSome = true ∧
    (handleGitCredentials writeOk "helper" [errResult]).1 = [] ∧
    (handleGitCredentials writeOk "helper" [errResult]).2.2 = none :=
  ⟨rfl, rfl, rfl⟩

/-- C6 amended: every handler treats an errored result as recoverable —
no effect is applied for it, no error is returned for it, and draining
continues — and the ssh and env handlers log a warning for the failure,
while the git-credentials handler skips it silently without logging. -/
theorem handlers_recoverable_failures (r : getResult) (e : Err)
    (hre : r.err = some e) :
    (∀ add rs kf,
      handleSSHKeysLoop add (r :: rs) kf =
        (LogMsg.warnDownloadSSH r.bucket r.key e ::
          (handleSSHKeysLoop add rs kf).1,
         (handleSSHKeysLoop add rs kf).2)) ∧
    (∀ write rs,
      handleEnvs write (r :: rs) =
        (handleEnvs write rs).map (fun rest =>
          (LogMsg.warnDownloadEnv r.bucket r.key e :: rest.1, rest.2))) ∧
    (∀ helper rs,
      handleGitCredentialsLoop helper (r :: rs) =
        handleGitCredentialsLoop helper rs) := by
  refine ⟨?_, ?_, ?_⟩
  · intro add rs kf
    simp [handleSSHKeysLoop, hre]
  · intro write rs
    simp only [handleEnvs, hre]
    cases h : handleEnvs write rs <;> simp [h]
  · intro helper rs
    simp [handleGitCredentialsLoop, hre]

/-- Witness for the amended C6 at a concrete errored result. -/
theorem handlers_recoverable_failures_witness :
    errResult.err = some "AccessDenied" ∧
    handleSSHKeysLoop addOk [errResult] false =
      (LogMsg.warnDownloadSSH errResult.bucket errResult.key "AccessDenied" ::
        (handleSSHKeysLoop addOk [] false).1,
       (handleSSHKeysLoop addOk [] false).2) :=
  ⟨rfl,
    (handlers_recoverable_failures errResult "AccessDenied" rfl).1 addOk []
      false⟩

theorem envPayload_ends_newline (data out : List Nat)
    (h : envPayload data = some out) : out.getLast? = some 10 := by
  unfold envPayload at h
  cases hl : data.getLast? with
  | none =>
    rw [hl] at h
    exact absurd h (by simp)
  | some b =>
    rw [hl] at h
    have hb := Option.some.inj h
    by_cases h10 : b = 10
    · rw [if_neg (by simp [h10])] at hb
      rw [← hb, hl, h10]
    · rw [if_pos h10] at hb
      rw [← hb]
      exact List.getLast?_concat _

/-- C3: for every successful env result the payload handed to the sink ends
in a newline; a payload already ending in `'\n'` is passed through entirely
unchanged, and one lacking it gets exactly one `'\n'` appended. -/
theorem envWriter_newline_normalisation :
    (∀ data b, data.getLast? = some b →
      (b = 10 → envPayload data = some data) ∧
      (b ≠ 10 → envPayload data = some (data ++ [10]))) ∧
    (∀ write rs out, handleEnvs write rs = some out →
      ∀ d, d ∈ out.2.1 → d.getLast? = some 10) := by
  constructor
  · intro data b hb
    constructor
    · intro h10
      simp [envPayload, hb, h10]
    · intro h10
      simp [envPayload, hb, h10]
  · intro write rs
    induction rs with
    | nil =>
      intro out hout d hd
      rw [handleEnvs] at hout
      cases hout
      simp at hd
    | cons r rs ih =>
      intro out hout d hd
      rw [handleEnvs] at hout
      split at hout
      · split at hout
        · exact absurd hout (by simp)
        · rename_i rest hrest
          cases hout
          exact ih rest hrest d hd
      · split at hout
        · exact absurd hout (by simp)
        · rename_i data hdata
          split at hout
          · cases hout
            have hdd : d = data := by simpa using hd
            rw [hdd]
            exact envPayload_ends_newline r.data data hdata
          · split at hout
            · exact absurd hout (by simp)
            · rename_i rest hrest
              cases hout
              rcases (by simpa using hd : d = data ∨ d ∈ rest.2.1) with
                rfl | hdm
              · exact envPayload_ends_newline r.data d hdata
              · exact ih rest hrest d hdm

/-- Witness for C3: the payload `[65]` (no trailing newline) gets a newline
appended; the payload `[65, 10]` is passed through unchanged. -/
theorem envWriter_newline_normalisation_witness :
    (([65] : List Nat).getLast? = some 65 ∧
      envPayload [65] = some [65, 10]) ∧
    (([65, 10] : List Nat).getLast? = some 10 ∧
      envPayload [65, 10] = some [65, 10]) ∧
    handleEnvs writeOk [envResA] = some ([LogMsg.loadingEnv "bkt" "env"],
      [[65, 10]], none) ∧
    ([65, 10] : List Nat).getLast? = some 10 :=
  ⟨⟨rfl, (envWriter_newline_normalisation.1 [65] 65 rfl).2 (by decide)⟩,
    ⟨rfl, (envWriter_newline_normalisation.1 [65, 10] 10 rfl).1 rfl⟩,
    rfl,
    envWriter_newline_normalisation.2 writeOk [envResA] _ rfl [65, 10]
      (by decide)⟩

/-- C4: `handleEnvs` is panic-free when every successful payload is
non-empty, and panics (indexes `data[len(data)-1]` out of bounds) as soon
as it reaches a successful result whose payload is the empty byte slice. -/
theorem envHandler_empty_payload_panics :
    (∀ write rs, (∀ r, r ∈ rs → r.err = none → r.data ≠ []) →
      (handleEnvs write rs).isSome = true) ∧
    (∀ write b k rs,
      handleEnvs write
        ({ bucket := b, key := k, data := [], err := none } :: rs) = none) := by
  constructor
  · intro write rs
    induction rs with
    | nil =>
      intro h
      rfl
    | cons r rs ih =>
      intro h
      have hrest := ih (fun x hx => h x (List.mem_cons_of_mem _ hx))
      rw [handleEnvs]
      cases he : r.err with
      | some e =>
        cases hr : handleEnvs write rs with
        | none => rw [hr] at hrest; exact absurd hrest (by simp)
        | some rest => simp
      | none =>
        have hne : r.data ≠ [] := h r (List.mem_cons_self r rs) he
        cases hl : r.data.getLast? with
        | none =>
          exact absurd (List.getLast?_eq_none_iff.mp hl) hne
        | some b =>
          obtain ⟨out1, hp⟩ : ∃ o, envPayload r.data = some o := by
            simp [envPayload, hl]
          simp only [hp]
          cases hw : write out1 with
          | some e => simp
          | none =>
            cases hr : handleEnvs write rs with
            | none => rw [hr] at hrest; exact absurd hrest (by simp)
            | some rest => simp [hr]
  · intro write b k rs
    rfl

/-- Witness for C4: a stream whose successful payloads are non-empty is
panic-free, and the same stream with an empty successful payload in front
panics. -/
theorem envHandler_empty_payload_panics_witness :
    (∀ r, r ∈ [envResA] → r.err = none → r.data ≠ []) ∧
    (handleEnvs writeOk [envResA]).isSome = true ∧
    handleEnvs writeOk
      ({ bucket := "bkt", key := "env", data := [], err := none } ::
        [envResA]) = none :=
  ⟨by decide, envHandler_empty_payload_panics.1 writeOk [envResA] (by decide),
    envHandler_empty_payload_panics.2 writeOk "bkt" "env" [envResA]⟩

theorem sshLoop_all_failed (add : List Nat → Option Err)
    (rs : List getResult) (h : ∀ r ∈ rs, r.err.isSome = true) (kf : Bool) :
    handleSSHKeysLoop add rs kf =
      (rs.map (fun r =>
          LogMsg.warnDownloadSSH r.bucket r.key (r.err.getD "")),
        [], kf, none) := by
  induction rs with
  | nil => rfl
  | cons r rs ih =>
    obtain ⟨e, he⟩ := Option.isSome_iff_exists.mp (h r (List.mem_cons_self r rs))
    have ih2 := ih (fun x hx => h x (List.mem_cons_of_mem _ hx))
    simp [handleSSHKeysLoop, he, ih2]

/-- C8: when every ssh-key lookup failed (so no key was registered), the
handler returns no error, and it emits the advisory warning exactly when
the repository identifier starts with `git@`. -/
theorem ssh_advisory_warning (add : List Nat → Option Err)
    (repo bucket : String) (rs : List getResult)
    (h : ∀ r ∈ rs, r.err.isSome = true) :
    (handleSSHKeys add repo bucket rs).2.2 = none ∧
    (LogMsg.warnNoSSHKey repo bucket ∈ (handleSSHKeys add repo bucket rs).1 ↔
      strStartsWith repo "git@" = true) := by
  have hl := sshLoop_all_failed add rs h false
  by_cases hsw : strStartsWith repo "git@"
  · simp [handleSSHKeys, hl, hsw]
  · simp [handleSSHKeys, hl, hsw]

/-- Witness for C8: with one failed lookup, the `git@` repo gets the
advisory and the `https` repo does not; neither run returns an error. -/
theorem ssh_advisory_warning_witness :
    (∀ r ∈ [errResult], r.err.isSome = true) ∧
    (strStartsWith "git@github.com:org/repo.git" "git@" = true) ∧
    (strStartsWith "https://github.com/org/repo.git" "git@" = false) ∧
    (handleSSHKeys addOk "git@github.com:org/repo.git" "bkt"
      [errResult]).2.2 = none ∧
    (LogMsg.warnNoSSHKey "git@github.com:org/repo.git" "bkt" ∈
      (handleSSHKeys addOk "git@github.com:org/repo.git" "bkt"
        [errResult]).1) ∧
    ¬ (LogMsg.warnNoSSHKey "https://github.com/org/repo.git" "bkt" ∈
      (handleSSHKeys addOk "https://github.com/org/repo.git" "bkt"
        [errResult]).1) := by
  refine ⟨by decide, by decide, by decide, ?_, ?_, ?_⟩
  · exact (ssh_advisory_warning addOk "git@github.com:org/repo.git" "bkt"
      [errResult] (by decide)).1
  · exact (ssh_advisory_warning addOk "git@github.com:org/repo.git" "bkt"
      [errResult] (by decide)).2.mpr (by decide)
  · intro hmem
    have hiff := (ssh_advisory_warning addOk "https://github.com/org/repo.git"
      "bkt" [errResult] (by decide)).2.mp hmem
    exact absurd hiff (by decide)

theorem sshLoop_append (add : List Nat → Option Err)
    (pre rest : List getResult) :
    ∀ kf, (handleSSHKeysLoop add pre kf).2.2.2 = none →
      handleSSHKeysLoop add (pre ++ rest) kf =
        ((handleSSHKeysLoop add pre kf).1 ++
            (handleSSHKeysLoop add rest
              (handleSSHKeysLoop add pre kf).2.2.1).1,
          (handleSSHKeysLoop add pre kf).2.1 ++
            (handleSSHKeysLoop add rest
              (handleSSHKeysLoop add pre kf).2.2.1).2.1,
          (handleSSHKeysLoop add rest
            (handleSSHKeysLoop add pre kf).2.2.1).2.2) := by
  induction pre with
  | nil =>
    intro kf _
    rfl
  | cons r pre ih =>
    intro kf hok
    cases he : r.err with
    | some e =>
      have hok2 : (handleSSHKeysLoop add pre kf).2.2.2 = none := by
        simpa [handleSSHKeysLoop, he] using hok
      simp [handleSSHKeysLoop, he, ih kf hok2]
    | none =>
      cases ha : add r.data with
      | some e =>
        rw [handleSSHKeysLoop] at hok
        simp [he, ha] at hok
      | none =>
        have hok2 : (handleSSHKeysLoop add pre true).2.2.2 = none := by
          simpa [handleSSHKeysLoop, he, ha] using hok
        simp [handleSSHKeysLoop, he, ha, ih true hok2]

/-- C7: a failing `Agent.Add` on a successful ssh-key result makes the ssh
handler return the error wrapped as `ssh-agent add: ...` at that point, and
`Run` then aborts: it returns that error and nothing is ever written to the
environment sink (the env and git-credentials categories are not handled). -/
theorem ssh_agent_failure_fatal :
    (∀ (add : List Nat → Option Err) pre r post e kf,
      (handleSSHKeysLoop add pre kf).2.2.2 = none → r.err = none →
      add r.data = some e →
      (handleSSHKeysLoop add (pre ++ r :: post) kf).2.2.2 =
        some ("ssh-agent add: " ++ e)) ∧
    (∀ conf e1, (conf.bucketExists conf.bucket).1 = true →
      (handleSSHKeys conf.add conf.repo conf.bucket
        (orderedResults conf.get conf.bucket (sshKeysList conf.pfx))).2.2 =
          some e1 →
      (Run conf).isSome = true ∧
      ∀ out, Run conf = some out → out.err = some e1 ∧ out.envWrites = []) := by
  constructor
  · intro add pre r post e kf hok hre ha
    rw [sshLoop_append add pre (r :: post) kf hok]
    simp [handleSSHKeysLoop, hre, ha]
  · intro conf e1 hok hssh
    cases hbe : conf.bucketExists conf.bucket with
    | mk ok berr =>
      rw [hbe] at hok
      simp only at hok
      subst hok
      rw [Run, hbe]
      simp only [Bool.not_true, Bool.false_eq_true, if_false]
      rw [hssh]
      exact ⟨rfl, fun out hout => by cases hout; exact ⟨rfl, rfl⟩⟩

/-- Witness for C7 at a configuration whose agent rejects every key: the
first successful ssh result aborts the handler and the run. -/
theorem ssh_agent_failure_fatal_witness :
    ((handleSSHKeysLoop confAgentFail.add [] false).2.2.2 = none ∧
      sshResOk.err = none ∧
      confAgentFail.add sshResOk.data = some "agent refused" ∧
      (handleSSHKeysLoop confAgentFail.add ([] ++ sshResOk :: [])
        false).2.2.2 = some ("ssh-agent add: " ++ "agent refused")) ∧
    ((confAgentFail.bucketExists confAgentFail.bucket).1 = true ∧
      (Run confAgentFail).isSome = true) := by
  constructor
  · exact ⟨rfl, rfl, rfl,
      ssh_agent_failure_fatal.1 confAgentFail.add [] sshResOk [] "agent refused"
        false rfl rfl rfl⟩
  · have hssh : (handleSSHKeys confAgentFail.add confAgentFail.repo
        confAgentFail.bucket (orderedResults confAgentFail.get
          confAgentFail.bucket (sshKeysList confAgentFail.pfx))).2.2 =
        some "ssh-agent add: agent refused" := by decide
    exact ⟨rfl,
      (ssh_agent_failure_fatal.2 confAgentFail "ssh-agent add: agent refused"
        rfl hssh).1⟩

/-- C2 counterexample: with a client whose `BucketExists` returns
`(true, err)` for a non-nil `err`, `Run` does not return the
`bucket ... not found` error and does not skip the fetch pipelines — it
proceeds and issues all ten `Get` calls, and the check's error is never
even logged (`log.Println(err)` sits inside the `!ok` branch). The short
circuit only tests the boolean, not the error. -/
theorem run_checkError_not_short_circuited :
    (confBucketErr.bucketExists confBucketErr.bucket).2 = some "timeout" ∧
    Option.map RunOut.err (Run confBucketErr) = some none ∧
    Option.map (fun o => o.getCalls.length) (Run confBucketErr) = some 10 ∧
    Option.map (fun o => o.logs.contains (LogMsg.errLine "timeout"))
      (Run confBucketErr) = some false ∧
    Option.map (fun o => o.logs.contains (LogMsg.warnBucketMissing "bkt"))
      (Run confBucketErr) = some false := by
  refine ⟨rfl, ?_, ?_, ?_, ?_⟩ <;> decide

/-- C2 amended: `Run` returns the fatal `bucket "<name>" not found` error
immediately, with zero `Get` calls, `Add` calls and sink writes, exactly
when the existence check reports the bucket absent (`ok = false`); when
the check returns `ok = true` together with a non-nil error, that error is
silently discarded — not logged — and the run proceeds. -/
theorem run_bucket_missing_short_circuit (conf : Config)
    (h : (conf.bucketExists conf.bucket).1 = false) :
    (Run conf).isSome = true ∧
    ∀ out, Run conf = some out →
      out.err = some ("bucket \"" ++ conf.bucket ++ "\" not found") ∧
      out.getCalls = [] ∧ out.adds = [] ∧ out.envWrites = [] := by
  cases hbe : conf.bucketExists conf.bucket with
  | mk ok berr =>
    rw [hbe] at h
    simp only at h
    subst h
    rw [Run, hbe]
    simp only [Bool.not_false, if_true]
    exact ⟨rfl, fun out hout => by cases hout; exact ⟨rfl, rfl, rfl, rfl⟩⟩

/-- Witness for the amended C2 at a concrete absent bucket. -/
theorem run_bucket_missing_short_circuit_witness :
    (confMissing.bucketExists confMissing.bucket).1 = false ∧
    (Run confMissing).isSome = true :=
  ⟨rfl, (run_bucket_missing_short_circuit confMissing rfl).1⟩
